import Mathlib

/-!
Verification development for the NYC property-club calendar scraper
(`scraper.py`).  The script aggregates club meeting announcements,
normalizes them into raw event records, and writes CSV / HTML / ICS
artifacts.  We embed the date arithmetic, the free-text date extractor
(`re.search` pattern plus `dateutil.parser.parse`), the first-Thursday
recurring generator, the per-club time-of-day policy with
`pytz.timezone("America/New_York").localize`, and the three output
writers, and prove the specified properties about them.

Conventions:
* Machine integers do not occur; all arithmetic is on `Nat`/`Int`.
* Python exceptions are modelled with `Option`/`Except`: a function that
  can raise returns `none`/`.error` exactly where the Python raises.
* Values obtained from the process environment (the current date used by
  `date.today()` and by `dateutil`'s implicit `default=datetime.now()`)
  are passed as explicit arguments.
-/

/-! ## Proleptic Gregorian calendar (Python `datetime.date`) -/

/-- Leap year test, as in Python's `calendar.isleap`. -/
def isLeap (y : Nat) : Bool := y % 4 == 0 && (y % 100 != 0 || y % 400 == 0)

/-- Number of days in month `m` (1-12) of year `y` (`calendar.monthrange(y, m)[1]`). -/
def monthLength (y m : Nat) : Nat :=
  if m = 2 then (if isLeap y then 29 else 28)
  else if m = 4 ∨ m = 6 ∨ m = 9 ∨ m = 11 then 30
  else 31

/-- Days in year `y` strictly before month `m`. -/
def daysBeforeMonth (y m : Nat) : Nat :=
  (List.range (m - 1)).foldl (fun acc i => acc + monthLength y (i + 1)) 0

/-- Python `date(y, m, d).toordinal()`: day number with 0001-01-01 = 1. -/
def toordinal (y m d : Nat) : Nat :=
  365 * (y - 1) + (y - 1) / 4 - (y - 1) / 100 + (y - 1) / 400 + daysBeforeMonth y m + d

/-- Python `date(y, m, d).weekday()`: Monday = 0 .. Sunday = 6
(0001-01-01, ordinal 1, was a Monday). -/
def weekday (y m d : Nat) : Nat := (toordinal y m d + 6) % 7

/-- ISO `date.isoformat()` zero padding. -/
def pad (w n : Nat) : String :=
  let s := toString n
  String.mk (List.replicate (w - s.length) '0') ++ s

/-- Python `date(y, m, d).isoformat()`, e.g. `"2025-11-06"`. -/
def isoOfDate (y m d : Nat) : String := pad 4 y ++ "-" ++ pad 2 m ++ "-" ++ pad 2 d

/-! ## Raw event records (the adapters' output dictionaries) -/

/-- One raw event dictionary as produced by the four scrapers. -/
structure RawRecord where
  club : String
  title : String
  location : String
  date : Option String
  source_url : String
deriving Repr, DecidableEq

/-! ## First-Thursday recurring generator (`first_thursday`, `scrape_mrmclub`) -/

/-- The `while d.weekday() != 3: d += timedelta(days=1)` loop of
`first_thursday`, with explicit fuel. The loop always terminates within 7
steps because weekdays cycle with period 7 (`firstThursdayAux_spec`); fuel 7
therefore reproduces the unbounded loop exactly. -/
def firstThursdayAux (y m : Nat) : Nat → Nat → Nat
  | d, 0 => d
  | d, fuel + 1 => if weekday y m d = 3 then d else firstThursdayAux y m (d + 1) fuel

/-- `first_thursday(year, month)` from the source: start at day 1 and advance
one day at a time until the weekday is Thursday (3). -/
def first_thursday (y m : Nat) : Nat := firstThursdayAux y m 1 7

/-- The fixed location string used by `scrape_mrmclub` (and `scrape_nybma`). -/
def connollys : String := "Connolly’s Pub & Restaurant, 121 West 45th St, New York, NY 10036"

/-- The record `scrape_mrmclub` appends for one (year, month) pair. -/
def mrmRecord (y m : Nat) : RawRecord :=
  { club := "Manhattan Resident Managers Club"
    title := "Monthly Meeting"
    location := connollys
    date := some (isoOfDate y m (first_thursday y m))
    source_url := "https://mrmclub.com/" }

/-- The recurring-schedule generator over an explicit window of
(year, month) pairs: one record per pair, dated the first Thursday of that
month (the body of `scrape_mrmclub`'s loop). -/
def generate (window : List (Nat × Nat)) : List RawRecord :=
  window.map (fun p => mrmRecord p.1 p.2)

/-- The 12-month window `scrape_mrmclub` computes from `date.today()`:
`year = today.year + (today.month + i - 1) // 12`,
`month = (today.month + i - 1) % 12 + 1` for `i` in `range(12)`. -/
def mrmMonths (todayYear todayMonth : Nat) : List (Nat × Nat) :=
  (List.range 12).map
    (fun i => (todayYear + (todayMonth + i - 1) / 12, (todayMonth + i - 1) % 12 + 1))

/-- `scrape_mrmclub`, with `date.today()` passed explicitly. -/
def scrape_mrmclub (todayYear todayMonth : Nat) : List RawRecord :=
  generate (mrmMonths todayYear todayMonth)

/-- Successor of a (year, month) pair; December rolls to January of the
next year. Used to state that the generated window is 12 consecutive
months with uniform rollover. -/
def nextMonth (p : Nat × Nat) : Nat × Nat :=
  if p.2 = 12 then (p.1 + 1, 1) else (p.1, p.2 + 1)

/-! ## The free-text date extractor (`parse_date_from_text`)

`parse_date_from_text` runs `re.search(r"([A-Z][a-z]+ \d{1,2}, \d{4})", text)`
and, on a match, `dateutil.parser.parse(match.group(1)).date().isoformat()`
inside a bare `try/except` that maps any exception to `None`.

Character classes: `[A-Z]`/`[a-z]` are exactly the ASCII ranges in Python's
`re`; `\d` additionally matches non-ASCII Unicode decimal digits, which this
model restricts to ASCII.  The shape predicates below use the same class, so
all statements interpret "digit" uniformly. -/

def isUpperA (c : Char) : Bool := 'A' ≤ c && c ≤ 'Z'

def isLowerA (c : Char) : Bool := 'a' ≤ c && c ≤ 'z'

def isDigitA (c : Char) : Bool := 48 ≤ c.toNat && c.toNat ≤ 57

/-- Numeric value of a digit string (Python `int` via `dateutil`'s tokens). -/
def natOfDigits (ds : List Char) : Nat :=
  ds.foldl (fun n c => 10 * n + (c.toNat - '0'.toNat)) 0

/-- Match `\d{4}` at the head: exactly four digits (unanchored, so a fifth
digit may follow in the remainder). Returns the four digits and the rest. -/
def matchYear (cs : List Char) : Option (List Char × List Char) :=
  match cs with
  | y1 :: y2 :: y3 :: y4 :: rest =>
    if isDigitA y1 && isDigitA y2 && isDigitA y3 && isDigitA y4 then
      some ([y1, y2, y3, y4], rest)
    else none
  | _ => none

/-- Match `, \d{4}` at the head, returning the year digits. -/
def matchCommaYear (cs : List Char) : Option (List Char) :=
  match cs with
  | ',' :: ' ' :: rest => (matchYear rest).map Prod.fst
  | _ => none

/-- Match `\d{1,2}, \d{4}` at the head, returning (day digits, year digits).
`\d{1,2}` is greedy: two digits are taken when available.  When the regex
engine backtracks from two digits to one, the next character is the second
digit, never `','`, so that retry can never succeed; committing to the
two-digit take is therefore exact. -/
def matchDayYear (cs : List Char) : Option (List Char × List Char) :=
  match cs with
  | a :: b :: rest =>
    if isDigitA a then
      if isDigitA b then (matchCommaYear rest).map (fun ys => ([a, b], ys))
      else (matchCommaYear (b :: rest)).map (fun ys => ([a], ys))
    else none
  | _ => none

/-- Match the whole pattern `[A-Z][a-z]+ \d{1,2}, \d{4}` at the head of
`cs`, returning (word, day digits, year digits).  `[a-z]+` is greedy;
shortening the run on backtracking leaves a lowercase letter where `' '` is
required, so the maximal run is exact. -/
def matchAt (cs : List Char) : Option (List Char × List Char × List Char) :=
  match cs with
  | [] => none
  | c :: rest =>
    if isUpperA c then
      if (rest.takeWhile isLowerA).length = 0 then none
      else
        match rest.drop (rest.takeWhile isLowerA).length with
        | ' ' :: rest2 =>
          (matchDayYear rest2).map (fun p => (c :: rest.takeWhile isLowerA, p.1, p.2))
        | _ => none
    else none

/-- `re.search`: the match at the leftmost position where one exists. -/
def searchDate : List Char → Option (List Char × List Char × List Char)
  | [] => none
  | c :: rest =>
    match matchAt (c :: rest) with
    | some r => some r
    | none => searchDate rest

/-! ### `dateutil.parser.parse` on strings of the matched form

The only strings the extractor hands to `dateutil` are of the form
`<Word> <D>, <Y>` with `Word` one uppercase letter plus lowercase letters,
`D` 1-2 digits and `Y` 4 digits.  `dateutil` tokenizes this into
`[Word, ' ', D, ',', ' ', Y]` and classifies `Word` case-insensitively as a
month name, a weekday name, a skippable JUMP token, or an unknown token
(which raises).  Since `Word` is always capitalized-lowercase, the
case-insensitive lookup coincides with literal comparison against the
capitalized spellings listed here.  `D` and `Y` go into the `ymd` slots;
missing fields are filled from `default = datetime.now()`, passed here
explicitly as `today`. -/

structure Today where
  year : Nat
  month : Nat
  day : Nat
deriving Repr, DecidableEq

/-- `parserinfo.MONTHS` (abbreviated and full English names). -/
def monthWords : List (String × Nat) :=
  [("Jan", 1), ("January", 1), ("Feb", 2), ("February", 2), ("Mar", 3),
   ("March", 3), ("Apr", 4), ("April", 4), ("May", 5), ("Jun", 6),
   ("June", 6), ("Jul", 7), ("July", 7), ("Aug", 8), ("August", 8),
   ("Sep", 9), ("Sept", 9), ("September", 9), ("Oct", 10), ("October", 10),
   ("Nov", 11), ("November", 11), ("Dec", 12), ("December", 12)]

def monthLookup (w : List Char) : Option Nat :=
  (monthWords.find? (fun p => p.1.data == w)).map (fun p => p.2)

/-- `parserinfo.WEEKDAYS` (Monday = 0 .. Sunday = 6). -/
def weekdayWords : List (String × Nat) :=
  [("Mon", 0), ("Monday", 0), ("Tue", 1), ("Tuesday", 1), ("Wed", 2),
   ("Wednesday", 2), ("Thu", 3), ("Thursday", 3), ("Fri", 4), ("Friday", 4),
   ("Sat", 5), ("Saturday", 5), ("Sun", 6), ("Sunday", 6)]

def weekdayLookup (w : List Char) : Option Nat :=
  (weekdayWords.find? (fun p => p.1.data == w)).map (fun p => p.2)

/-- The alphabetic `parserinfo.JUMP` tokens that the regex word
`[A-Z][a-z]+` can actually produce (the single-letter `"m"`/`"t"` and the
punctuation jump tokens cannot be the matched word). -/
def jumpWords : List String := ["At", "On", "And", "Ad", "Of", "St", "Nd", "Rd", "Th"]

def isJump (w : List Char) : Bool := jumpWords.any (fun s => s.data == w)

/-- `parserinfo.convertyear`: two-digit years (when no value over 100 set
the `century_specified` flag) are moved into the century within ±50 years
of the current year. -/
def convertyear (todayYear : Nat) (centurySpecified : Bool) (y : Nat) : Nat :=
  if y < 100 && !centurySpecified then
    let y1 := y + todayYear / 100 * 100
    if todayYear + 50 ≤ y1 then y1 - 100
    else if y1 + 50 < todayYear then y1 + 100
    else y1
  else y

/-- `datetime.replace(year, month, day)`: validates the field ranges and
raises `ValueError` (here `none`) otherwise. -/
def mkDate (y m d : Nat) : Option (Nat × Nat × Nat) :=
  if 1 ≤ y ∧ y ≤ 9999 ∧ 1 ≤ m ∧ m ≤ 12 ∧ 1 ≤ d ∧ d ≤ monthLength y m then
    some (y, m, d)
  else none

/-- Build a date whose day was not parsed: the day comes from `default`
(= today), clamped to the month length by `_build_naive`. -/
def mkDateDefaultDay (today : Today) (y m : Nat) : Option (Nat × Nat × Nat) :=
  mkDate y m (min today.day (monthLength y m))

/-- Advance a date by `n` days (`n ≤ 6` in use, so fuel recursion is exact). -/
def addDaysAux : Nat × Nat × Nat → Nat → Nat × Nat × Nat
  | t, 0 => t
  | (y, m, d), n + 1 =>
    if d < monthLength y m then addDaysAux (y, m, d + 1) n
    else if m < 12 then addDaysAux (y, m + 1, 1) n
    else addDaysAux (y + 1, 1, 1) n

/-- `date + relativedelta(weekday=wd)`: the next date (possibly the same
day) whose weekday is `wd`; the jump is `(7 - date.weekday() + wd) % 7` days. -/
def nextWeekdayOnOrAfter (wd : Nat) (t : Nat × Nat × Nat) : Nat × Nat × Nat :=
  addDaysAux t ((7 - weekday t.1 t.2.1 t.2.2 + wd) % 7)

/-- `resolve_ymd` for two unlabelled-or-year-labelled members `[dv, yv]`
(the weekday and JUMP word cases), followed by `_build_naive`'s fill-in of
missing fields from the default date.  Returns the date and whether the
day field was parsed (the weekday adjustment only applies when it was not).
A `yv > 100` member sets the global `century_specified` flag and a year
label, but the two-member stridx shortcut does not fire (2 members vs 1
labelled), so the plain two-member rules run. -/
def resolveTwo (today : Today) (dv yv : Nat) : Option ((Nat × Nat × Nat) × Bool) :=
  if 31 < dv then
    (mkDateDefaultDay today (convertyear today.year (100 < yv) dv) yv).map (fun t => (t, false))
  else if 31 < yv then
    (mkDateDefaultDay today (convertyear today.year (100 < yv) yv) dv).map (fun t => (t, false))
  else
    (mkDate today.year dv yv).map (fun t => (t, true))

/-- `dateutil.parser.parse` on `"<Word> <dv>, <yv>"` (see the section
comment), returning the `.date()` triple (year, month, day), or `none`
where the Python raises. -/
def dateutilParseWordNumNum (today : Today) (w : List Char) (dv yv : Nat) :
    Option (Nat × Nat × Nat) :=
  match monthLookup w with
  | some m =>
    if 100 < yv then
      -- ymd = [m (labelled M), dv, yv (labelled Y)]: `_resolve_from_stridxs`
      -- backs out the remaining slot: year = yv, month = m, day = dv.
      mkDate yv m dv
    else
      -- only the month is labelled: `resolve_ymd` with mstridx = 0.
      if 31 < dv then
        -- month, year, day = ymd
        mkDate (convertyear today.year false dv) m yv
      else
        -- month, day, year = ymd
        mkDate (convertyear today.year false yv) m dv
  | none =>
    match weekdayLookup w with
    | some wd =>
      match resolveTwo today dv yv with
      | none => none
      | some (t, daySet) =>
        if daySet then some t
        else
          -- `res.weekday` is set and no day was parsed: `_build_naive`
          -- adds `relativedelta(weekday=wd)`.
          let t2 := nextWeekdayOnOrAfter wd t
          if t2.1 ≤ 9999 then some t2 else none
    | none =>
      if isJump w then (resolveTwo today dv yv).map Prod.fst
      else none

/-- `parse_date_from_text` from the source, with the process state that
`dateutil` reads implicitly (`datetime.now()`, also the year cached by its
default `parserinfo`) passed as `today`.  The bare `except:` maps every
parse failure to `None`. -/
def parse_date_from_text (today : Today) (s : List Char) : Option String :=
  match searchDate s with
  | none => none
  | some (w, ds, ys) =>
    match dateutilParseWordNumNum today w (natOfDigits ds) (natOfDigits ys) with
    | none => none
    | some t => some (isoOfDate t.1 t.2.1 t.2.2)

/-! ### Shape predicates from the claims

These two predicates follow the claim wording ("a substring of the shape
`<Capitalized month name> <1-2 digit day>, <4-digit year>`", and the
corresponding `<Capitalized word>` weakening), not the source. -/

def yearShapeB (cs : List Char) : Bool :=
  match cs with
  | y1 :: y2 :: y3 :: y4 :: _ => isDigitA y1 && isDigitA y2 && isDigitA y3 && isDigitA y4
  | _ => false

/-- `", "` followed by four year digits starts at the head of `cs`. -/
def commaSpYearB (cs : List Char) : Bool :=
  match cs with
  | ',' :: ' ' :: rest => yearShapeB rest
  | _ => false

/-- A 1-digit or 2-digit day followed by `", "` and four year digits starts
at the head of `cs`. -/
def dayCommaYearB (cs : List Char) : Bool :=
  match cs with
  | a :: rest =>
    isDigitA a &&
    (commaSpYearB rest ||
      (match rest with
       | b :: rest2 => isDigitA b && commaSpYearB rest2
       | [] => false))
  | [] => false

/-- A capitalized month name (full or abbreviated, as recognized by the
date parser), a space, a 1-2 digit day, `", "`, and four year digits start
at the head of `cs`. -/
def monthShapeAtB (cs : List Char) : Bool :=
  monthWords.any (fun p =>
    p.1.data.isPrefixOf cs &&
    (match cs.drop p.1.data.length with
     | ' ' :: rest => dayCommaYearB rest
     | _ => false))

def containsMonthShape : List Char → Bool
  | [] => false
  | c :: rest => monthShapeAtB (c :: rest) || containsMonthShape rest

/-- One uppercase letter, one or more lowercase letters, a space, a 1-2
digit day, `", "`, and four year digits start at the head of `cs`.  (If any
decomposition of this shape starts here, its lowercase run is necessarily
the maximal one, since the run is followed by `' '`.) -/
def capWordShapeAtB (cs : List Char) : Bool :=
  match cs with
  | c :: rest =>
    isUpperA c && decide (0 < (rest.takeWhile isLowerA).length) &&
    (match rest.drop (rest.takeWhile isLowerA).length with
     | ' ' :: rest2 => dayCommaYearB rest2
     | _ => false)
  | [] => false

def containsCapWordShape : List Char → Bool
  | [] => false
  | c :: rest => capWordShapeAtB (c :: rest) || containsCapWordShape rest

/-! ## Lemmas: weekday arithmetic and the first-Thursday loop -/

theorem toordinal_succ_day (y m d : Nat) : toordinal y m (d + 1) = toordinal y m d + 1 := by
  unfold toordinal
  omega

theorem weekday_succ_day (y m d : Nat) : weekday y m (d + 1) = (weekday y m d + 1) % 7 := by
  unfold weekday
  rw [toordinal_succ_day]
  omega

theorem weekday_add (y m d k : Nat) : weekday y m (d + k) = (weekday y m d + k) % 7 := by
  induction k with
  | zero =>
    have h : weekday y m d < 7 := Nat.mod_lt _ (by norm_num)
    rw [Nat.add_zero, Nat.add_zero]
    exact (Nat.mod_eq_of_lt h).symm
  | succ n ih =>
    have h := weekday_succ_day y m (d + n)
    rw [show d + (n + 1) = d + n + 1 from rfl, h, ih]
    omega

theorem exists_thursday_within_week (y m d : Nat) :
    ∃ k, k ≤ 6 ∧ weekday y m (d + k) = 3 := by
  have hw : weekday y m d < 7 := Nat.mod_lt _ (by norm_num)
  refine ⟨(10 - weekday y m d) % 7, by omega, ?_⟩
  rw [weekday_add]
  omega

theorem firstThursdayAux_spec (y m : Nat) :
    ∀ fuel d, (∃ k, k ≤ fuel ∧ weekday y m (d + k) = 3) →
      weekday y m (firstThursdayAux y m d fuel) = 3 ∧
      d ≤ firstThursdayAux y m d fuel ∧
      (∀ j, d ≤ j → j < firstThursdayAux y m d fuel → weekday y m j ≠ 3) := by
  intro fuel
  induction fuel with
  | zero =>
    intro d h
    obtain ⟨k, hk, hw⟩ := h
    have hk0 : k = 0 := by omega
    subst hk0
    simp only [firstThursdayAux]
    exact ⟨by simpa using hw, Nat.le_refl d, fun j h1 h2 => by omega⟩
  | succ n ih =>
    intro d h
    by_cases h3 : weekday y m d = 3
    · simp only [firstThursdayAux, if_pos h3]
      exact ⟨h3, Nat.le_refl d, fun j h1 h2 => by omega⟩
    · obtain ⟨k, hk, hw⟩ := h
      have hkpos : k ≠ 0 := by
        intro h0
        subst h0
        simp at hw
        exact h3 hw
      have hrec := ih (d + 1) ⟨k - 1, by omega, by rw [show d + 1 + (k - 1) = d + k by omega]; exact hw⟩
      simp only [firstThursdayAux, if_neg h3]
      refine ⟨hrec.1, by omega, fun j h1 h2 => ?_⟩
      rcases Nat.eq_or_lt_of_le h1 with he | hl
      · rw [← he]; exact h3
      · exact hrec.2.2 j (by omega) h2

theorem first_thursday_spec (y m : Nat) :
    1 ≤ first_thursday y m ∧ first_thursday y m ≤ 7 ∧
    weekday y m (first_thursday y m) = 3 ∧
    (∀ j, 1 ≤ j → j < first_thursday y m → weekday y m j ≠ 3) := by
  unfold first_thursday
  obtain ⟨k, hk, hw⟩ := exists_thursday_within_week y m 1
  have h := firstThursdayAux_spec y m 7 1 ⟨k, by omega, hw⟩
  have hub : firstThursdayAux y m 1 7 ≤ 1 + k := by
    by_contra hgt
    exact h.2.2 (1 + k) (by omega) (by omega) hw
  exact ⟨h.2.1, by omega, h.1, h.2.2⟩

/-- C2: one record per (year, month) pair in the window, dated the first
Thursday of that month (start at day 1, advance one day at a time until the
weekday is Thursday — i.e. the least day-of-month that is a Thursday);
month/year rollover in the generated window is the uniform successor (no
December special case); and the window [(2025,10),(2025,11),(2025,12)]
yields 2025-10-02, 2025-11-06, 2025-12-04 in that order. -/
theorem generate_first_thursday_window :
    (∀ y m, weekday y m (first_thursday y m) = 3 ∧
      1 ≤ first_thursday y m ∧ first_thursday y m ≤ 7 ∧
      (∀ j, 1 ≤ j → j < first_thursday y m → weekday y m j ≠ 3)) ∧
    (∀ window : List (Nat × Nat), (generate window).map (fun r => r.date) =
      window.map (fun p => some (isoOfDate p.1 p.2 (first_thursday p.1 p.2)))) ∧
    (∀ ty tm i, 1 ≤ tm → i + 1 < 12 →
      (mrmMonths ty tm)[i + 1]? = ((mrmMonths ty tm)[i]?).map nextMonth) ∧
    ((generate [(2025, 10), (2025, 11), (2025, 12)]).map (fun r => r.date) =
      [some "2025-10-02", some "2025-11-06", some "2025-12-04"]) := by
  refine ⟨?_, ?_, ?_, by decide⟩
  · intro y m
    have h := first_thursday_spec y m
    exact ⟨h.2.2.1, h.1, h.2.1, h.2.2.2⟩
  · intro window
    simp [generate, mrmRecord]
  · intro ty tm i htm hi
    simp only [mrmMonths, List.getElem?_map, List.getElem?_range, hi, if_pos,
      show i < 12 by omega, Option.map_some, Option.map_some']
    have hn : tm + (i + 1) - 1 = (tm + i - 1) + 1 := by omega
    rw [hn]
    unfold nextMonth
    dsimp only
    by_cases hm : (tm + i - 1) % 12 + 1 = 12
    · rw [if_pos hm]
      simp only [Option.some.injEq, Prod.mk.injEq]
      constructor <;> omega
    · rw [if_neg hm]
      simp only [Option.some.injEq, Prod.mk.injEq]
      constructor <;> omega

/-- Witness for `generate_first_thursday_window` at concrete inputs:
November 2025 (first Thursday the 6th, day 5 is not a Thursday) and the
December 2025 → January 2026 rollover inside a window starting that month. -/
theorem generate_first_thursday_window_witness :
    weekday 2025 11 (first_thursday 2025 11) = 3 ∧
    weekday 2025 11 5 ≠ 3 ∧
    (mrmMonths 2025 12)[1]? = ((mrmMonths 2025 12)[0]?).map nextMonth := by
  have h := generate_first_thursday_window
  exact ⟨(h.1 2025 11).1,
    (h.1 2025 11).2.2.2 5 (by decide) (by decide),
    h.2.2.1 2025 12 0 (by decide) (by decide)⟩

/-! ## Lemmas: a regex match exhibits the claimed shape -/

theorem matchYear_shape (cs : List Char) (p : List Char × List Char)
    (h : matchYear cs = some p) :
    yearShapeB cs = true ∧ p.1.length = 4 ∧ (∀ c ∈ p.1, isDigitA c = true) := by
  unfold matchYear at h
  split at h
  · rename_i y1 y2 y3 y4 rest
    split at h
    · rename_i hd
      injection h with h
      subst h
      simp only [yearShapeB]
      simp only [Bool.and_eq_true] at hd
      refine ⟨by simp [hd.1.1.1, hd.1.1.2, hd.1.2, hd.2], rfl, ?_⟩
      intro c hc
      simp only [List.mem_cons, List.not_mem_nil, or_false] at hc
      rcases hc with rfl | rfl | rfl | rfl
      · exact hd.1.1.1
      · exact hd.1.1.2
      · exact hd.1.2
      · exact hd.2
    · exact absurd h (by simp)
  · exact absurd h (by simp)

theorem matchCommaYear_shape (cs ys : List Char) (h : matchCommaYear cs = some ys) :
    ∃ rest3, cs = ',' :: ' ' :: rest3 ∧ yearShapeB rest3 = true ∧
      ys.length = 4 ∧ (∀ c ∈ ys, isDigitA c = true) := by
  unfold matchCommaYear at h
  split at h
  · rename_i rest3
    rw [Option.map_eq_some'] at h
    obtain ⟨p, hp, hys⟩ := h
    have hs := matchYear_shape _ _ hp
    exact ⟨rest3, rfl, hs.1, by rw [← hys]; exact hs.2.1, by rw [← hys]; exact hs.2.2⟩
  · exact absurd h (by simp)

theorem matchDayYear_shape (cs : List Char) (p : List Char × List Char)
    (h : matchDayYear cs = some p) :
    dayCommaYearB cs = true ∧ p.2.length = 4 ∧ (∀ c ∈ p.2, isDigitA c = true) := by
  unfold matchDayYear at h
  split at h
  · rename_i a b rest
    split at h
    case isTrue hda =>
      split at h
      case isTrue hdb =>
        rw [Option.map_eq_some'] at h
        obtain ⟨ys, hys, hp⟩ := h
        obtain ⟨rest3, hrest, hshape, hlen, hdig⟩ := matchCommaYear_shape _ _ hys
        subst hrest
        refine ⟨?_, by rw [← hp]; exact hlen, by rw [← hp]; exact hdig⟩
        simp only [dayCommaYearB, hda, hdb, commaSpYearB, hshape, Bool.and_true,
          Bool.true_and, Bool.and_self, Bool.or_true]
      case isFalse hdb =>
        rw [Option.map_eq_some'] at h
        obtain ⟨ys, hys, hp⟩ := h
        obtain ⟨rest3, hrest, hshape, hlen, hdig⟩ := matchCommaYear_shape _ _ hys
        rw [List.cons.injEq] at hrest
        obtain ⟨rfl, hrest⟩ := hrest
        subst hrest
        refine ⟨?_, by rw [← hp]; exact hlen, by rw [← hp]; exact hdig⟩
        simp only [dayCommaYearB, hda, commaSpYearB, hshape, Bool.true_and, Bool.true_or]
    case isFalse hda => exact absurd h (by simp)
  · exact absurd h (by simp)

theorem matchAt_decomp (cs w ds ys : List Char)
    (h : matchAt cs = some (w, ds, ys)) :
    ∃ c rest rest2, cs = c :: rest ∧ isUpperA c = true ∧
      0 < (rest.takeWhile isLowerA).length ∧
      rest.drop (rest.takeWhile isLowerA).length = ' ' :: rest2 ∧
      matchDayYear rest2 = some (ds, ys) ∧
      w = c :: rest.takeWhile isLowerA := by
  unfold matchAt at h
  split at h
  · exact absurd h (by simp)
  · rename_i c rest
    split at h
    case isTrue hu =>
      split at h
      case isTrue hlen => exact absurd h (by simp)
      case isFalse hlen =>
        split at h
        · rename_i rest2 hdrop
          rw [Option.map_eq_some'] at h
          obtain ⟨q, hq, hw⟩ := h
          obtain ⟨qd, qy⟩ := q
          simp only [Prod.mk.injEq] at hw
          obtain ⟨hw1, hw2, hw3⟩ := hw
          subst hw1
          subst hw2
          subst hw3
          refine ⟨c, rest, rest2, ?_⟩
          refine ⟨rfl, hu, ?_, hdrop, hq, rfl⟩
          omega
        · exact absurd h (by simp)
    case isFalse hu => exact absurd h (by simp)

theorem matchAt_capShape (cs : List Char) (r : List Char × List Char × List Char)
    (h : matchAt cs = some r) : capWordShapeAtB cs = true := by
  obtain ⟨c, rest, rest2, hcs, hu, hlen, hdrop, hmd, _⟩ :=
    matchAt_decomp cs r.1 r.2.1 r.2.2 (by rw [h])
  subst hcs
  have hshape := (matchDayYear_shape _ _ hmd).1
  simp only [capWordShapeAtB, hu, hdrop, hshape, Bool.true_and, Bool.and_true,
    decide_eq_true_eq]
  exact hlen

theorem matchAt_monthShape (cs w ds ys : List Char) (m : Nat)
    (h : matchAt cs = some (w, ds, ys)) (hm : monthLookup w = some m) :
    monthShapeAtB cs = true := by
  obtain ⟨c, rest, rest2, hcs, hu, hlen, hdrop, hmd, hw⟩ := matchAt_decomp cs w ds ys h
  obtain ⟨t, ht⟩ := (List.takeWhile_prefix (l := rest) (p := isLowerA))
  have hdropt : rest.drop (rest.takeWhile isLowerA).length = t := by
    have hd := List.drop_left (rest.takeWhile isLowerA) t
    rw [ht] at hd
    exact hd
  have ht2 : t = ' ' :: rest2 := by rw [← hdropt]; exact hdrop
  have hrest : rest = rest.takeWhile isLowerA ++ ' ' :: rest2 := by
    rw [← ht2]
    exact ht.symm
  have hcs2 : cs = w ++ ' ' :: rest2 := by
    rw [hcs, hw]
    exact congrArg (fun l => c :: l) hrest
  unfold monthLookup at hm
  rw [Option.map_eq_some'] at hm
  obtain ⟨q, hq, hqm⟩ := hm
  have hqmem : q ∈ monthWords := List.mem_of_find?_eq_some hq
  have hqw : q.1.data = w := by
    have := List.find?_some hq
    simpa using this
  rw [monthShapeAtB, List.any_eq_true]
  refine ⟨q, hqmem, ?_⟩
  rw [Bool.and_eq_true]
  constructor
  · rw [List.isPrefixOf_iff_prefix, hqw, hcs2]
    exact ⟨' ' :: rest2, rfl⟩
  · rw [hqw, hcs2, List.drop_left]
    exact (matchDayYear_shape _ _ hmd).1

theorem searchDate_capShape (s : List Char) (r : List Char × List Char × List Char)
    (h : searchDate s = some r) : containsCapWordShape s = true := by
  induction s with
  | nil => simp [searchDate] at h
  | cons c rest ih =>
    unfold searchDate at h
    simp only [containsCapWordShape]
    split at h
    · rename_i hma
      rw [matchAt_capShape _ _ hma]
      simp
    · rw [ih h]
      simp

theorem searchDate_monthShape (s w ds ys : List Char) (m : Nat)
    (h : searchDate s = some (w, ds, ys)) (hm : monthLookup w = some m) :
    containsMonthShape s = true := by
  induction s with
  | nil => simp [searchDate] at h
  | cons c rest ih =>
    unfold searchDate at h
    simp only [containsMonthShape]
    split at h
    · rename_i hma
      injection h with h
      subst h
      rw [matchAt_monthShape _ _ _ _ _ hma hm]
      simp
    · rw [ih h]
      simp

theorem searchDate_year_digits (s w ds ys : List Char)
    (h : searchDate s = some (w, ds, ys)) :
    ys.length = 4 ∧ (∀ c ∈ ys, isDigitA c = true) := by
  induction s with
  | nil => simp [searchDate] at h
  | cons c rest ih =>
    unfold searchDate at h
    split at h
    · rename_i hma
      injection h with h
      subst h
      obtain ⟨_, _, _, _, _, _, _, hmd, _⟩ := matchAt_decomp _ _ _ _ hma
      exact (matchDayYear_shape _ _ hmd).2
    · exact ih h

/-! ## Lemmas: numeric bounds and month lookup -/

theorem natOfDigits_lt_pow (ds : List Char) (hd : ∀ c ∈ ds, isDigitA c = true) :
    natOfDigits ds < 10 ^ ds.length := by
  suffices h : ∀ (l : List Char) (n : Nat), (∀ c ∈ l, isDigitA c = true) →
      l.foldl (fun n c => 10 * n + (c.toNat - '0'.toNat)) n < (n + 1) * 10 ^ l.length by
    have h0 := h ds 0 hd
    simp only [Nat.zero_add, Nat.one_mul] at h0
    exact h0
  intro l
  induction l with
  | nil =>
    intro n _
    simp only [List.foldl_nil, List.length_nil, pow_zero, Nat.mul_one]
    exact Nat.lt_succ_self n
  | cons c t ih =>
    intro n hl
    have hc : isDigitA c = true := hl c (List.mem_cons_self c t)
    have hv : c.toNat - '0'.toNat ≤ 9 := by
      simp only [isDigitA, Bool.and_eq_true, decide_eq_true_eq] at hc
      have : ('0' : Char).toNat = 48 := by decide
      omega
    have ih2 := ih (10 * n + (c.toNat - '0'.toNat)) (fun x hx => hl x (List.mem_cons_of_mem c hx))
    simp only [List.foldl_cons, List.length_cons]
    calc t.foldl (fun n c => 10 * n + (c.toNat - '0'.toNat)) (10 * n + (c.toNat - '0'.toNat))
        < (10 * n + (c.toNat - '0'.toNat) + 1) * 10 ^ t.length := ih2
      _ ≤ ((n + 1) * 10) * 10 ^ t.length := Nat.mul_le_mul_right _ (by omega)
      _ = (n + 1) * 10 ^ (t.length + 1) := by rw [pow_succ]; ring

theorem monthLookup_range (w : List Char) (m : Nat) (h : monthLookup w = some m) :
    1 ≤ m ∧ m ≤ 12 := by
  unfold monthLookup at h
  rw [Option.map_eq_some'] at h
  obtain ⟨q, hq, hqm⟩ := h
  have hqmem : q ∈ monthWords := List.mem_of_find?_eq_some hq
  have hall : ∀ p ∈ monthWords, 1 ≤ p.2 ∧ p.2 ≤ 12 := by decide
  rw [← hqm]
  exact hall q hqmem

theorem monthLength_le_31 (y m : Nat) : monthLength y m ≤ 31 := by
  unfold monthLength
  split
  · split <;> omega
  · split <;> omega

/-! ## C3 and C4: the free-text extractor -/

/-- C3 counterexample: `"On 5, 2025"` contains no substring of the shape
`<Capitalized month name> <1-2 digit day>, <4-digit year>`, yet the
extractor returns a date, not null: the regex matches `"On 5, 2025"`, and
the date parser treats `"On"` as a skippable token, resolves month 5 and
year 2025 from the two numbers, and fills the day from the current date
(here 2025-10-12).  This refutes the claim that such inputs yield null. -/
theorem parse_date_counterexample_jump_word :
    containsMonthShape "On 5, 2025".data = false ∧
    parse_date_from_text ⟨2025, 10, 12⟩ "On 5, 2025".data = some "2025-05-12" := by
  constructor
  · decide
  · decide

/-- C3 amended: the extractor is total (returns normally on every input),
and returns null for every input containing no substring of the shape
`<Capitalized word> <1-2 digit day>, <4-digit year>` (the month-name
restriction of the original claim is dropped: any capitalized word matches
the regex, and some non-month words are accepted by the date parser). -/
theorem parse_date_total_and_null_without_word_shape (today : Today) (s : List Char) :
    (parse_date_from_text today s = none ∨ ∃ r, parse_date_from_text today s = some r) ∧
    (containsCapWordShape s = false → parse_date_from_text today s = none) := by
  constructor
  · cases h : parse_date_from_text today s with
    | none => exact Or.inl rfl
    | some r => exact Or.inr ⟨r, rfl⟩
  · intro hns
    cases hs : searchDate s with
    | none => simp [parse_date_from_text, hs]
    | some r =>
      have hc := searchDate_capShape s r hs
      rw [hns] at hc
      exact absurd hc (by simp)

/-- Witness for `parse_date_total_and_null_without_word_shape` at a
concrete shape-free input. -/
theorem parse_date_null_witness :
    containsCapWordShape "no date here".data = false ∧
    parse_date_from_text ⟨2025, 10, 12⟩ "no date here".data = none := by
  refine ⟨by decide, ?_⟩
  exact (parse_date_total_and_null_without_word_shape ⟨2025, 10, 12⟩
    "no date here".data).2 (by decide)

/-- C4 counterexample: the input contains the valid substring
`"January 1, 2025"` (which the extractor maps to `2025-01-01` when given
alone), but `re.search` finds the earlier match `"Qqqq 1, 1111"` first,
`dateutil` raises on the unknown word `"Qqqq"`, and the extractor returns
null instead of the embedded date.  This refutes the claim that every
input containing a valid `Month D, YYYY` substring yields that date. -/
theorem parse_date_counterexample_first_match :
    containsMonthShape "Qqqq 1, 1111 January 1, 2025".data = true ∧
    parse_date_from_text ⟨2025, 10, 12⟩ "January 1, 2025".data = some "2025-01-01" ∧
    parse_date_from_text ⟨2025, 10, 12⟩ "Qqqq 1, 1111 January 1, 2025".data = none := by
  refine ⟨by decide, by decide, by decide⟩

/-- C4 amended: if the FIRST regex match in the input has a recognized
capitalized month name as its word, a day that is valid for that month and
year, and a year of at least 100 (smaller parsed years are century-shifted
relative to the current year), then the extractor returns exactly that date
in ISO form, wherever the match sits in the surrounding text. -/
theorem parse_date_first_month_match_iso (today : Today) (s w ds ys : List Char) (m : Nat)
    (hs : searchDate s = some (w, ds, ys))
    (hm : monthLookup w = some m)
    (hy : 100 ≤ natOfDigits ys)
    (hd1 : 1 ≤ natOfDigits ds)
    (hd2 : natOfDigits ds ≤ monthLength (natOfDigits ys) m) :
    parse_date_from_text today s = some (isoOfDate (natOfDigits ys) m (natOfDigits ds)) := by
  have hyd := searchDate_year_digits s w ds ys hs
  have hylt : natOfDigits ys < 10000 := by
    have hp := natOfDigits_lt_pow ys hyd.2
    rw [hyd.1] at hp
    norm_num at hp
    exact hp
  have hmr := monthLookup_range w m hm
  have hdu : dateutilParseWordNumNum today w (natOfDigits ds) (natOfDigits ys) =
      some (natOfDigits ys, m, natOfDigits ds) := by
    simp only [dateutilParseWordNumNum, hm]
    by_cases h100 : 100 < natOfDigits ys
    · rw [if_pos h100]
      unfold mkDate
      rw [if_pos]
      exact ⟨by omega, by omega, hmr.1, hmr.2, hd1, hd2⟩
    · have hy100 : natOfDigits ys = 100 := by omega
      rw [if_neg h100]
      have hnd : ¬(31 < natOfDigits ds) := by
        have := monthLength_le_31 (natOfDigits ys) m
        omega
      rw [if_neg hnd, hy100]
      have hcv : convertyear today.year false 100 = 100 := by
        unfold convertyear
        norm_num
      rw [hcv]
      unfold mkDate
      rw [if_pos]
      exact ⟨by omega, by omega, hmr.1, hmr.2, hd1, by rw [← hy100]; exact hd2⟩
  simp only [parse_date_from_text, hs, hdu]

/-- Witness for `parse_date_first_month_match_iso`: the first (and only)
match in `"Gala May 30, 2026"` is `"May 30, 2026"`. -/
theorem parse_date_first_month_match_iso_witness :
    parse_date_from_text ⟨2026, 1, 1⟩ "Gala May 30, 2026".data = some (isoOfDate 2026 5 30) := by
  have h := parse_date_first_month_match_iso ⟨2026, 1, 1⟩ "Gala May 30, 2026".data
    "May".data ['3', '0'] ['2', '0', '2', '6'] 5 (by decide) (by decide) (by decide)
    (by decide) (by decide)
  have e1 : natOfDigits ['2', '0', '2', '6'] = 2026 := by decide
  have e2 : natOfDigits ['3', '0'] = 30 := by decide
  rw [e1, e2] at h
  exact h

/-! ## pytz America/New_York and the ICS event builder

The `__main__` block localizes club meeting times with
`pytz.timezone("America/New_York").localize(...)`.  US rule (in force
since 2007, so for every date this pipeline produces): daylight saving
from the second Sunday of March 02:00 to the first Sunday of November
02:00 local; EDT = UTC-04:00, EST = UTC-05:00. -/

/-- Day of month of the second Sunday of March of year `y`. -/
def secondSundayMarch (y : Nat) : Nat := 1 + (6 - weekday y 3 1) % 7 + 7

/-- Day of month of the first Sunday of November of year `y`. -/
def firstSundayNovember (y : Nat) : Nat := 1 + (6 - weekday y 11 1) % 7

/-- Whether `localize` resolves the naive local time (`minutes` past
midnight on y-m-d) to the daylight-saving offset.  With the default
`is_dst=False`, the ambiguous hour on the fall-back day and the
nonexistent [02:00, 03:00) hour on the spring-forward day both get the
standard offset; club meeting times (17:00-21:30) never touch those hours. -/
def dstActive (y m d minutes : Nat) : Bool :=
  if m < 3 ∨ 11 < m then false
  else if m = 3 then
    decide (secondSundayMarch y < d ∨ (d = secondSundayMarch y ∧ 180 ≤ minutes))
  else if m = 11 then
    decide (d < firstSundayNovember y ∨ (d = firstSundayNovember y ∧ minutes < 60))
  else true

/-- A timezone-aware instant as produced by `localize`: the naive local
fields plus the resolved UTC offset and the zone. -/
structure LocalInstant where
  year : Nat
  month : Nat
  day : Nat
  minutes : Nat
  offsetMinutes : Int
  zone : String
deriving Repr, DecidableEq

/-- `ny_tz.localize(datetime(y, m, d, hh, mm))`. -/
def localizeNY (y m d minutes : Nat) : LocalInstant :=
  { year := y, month := m, day := d, minutes := minutes
    offsetMinutes := if dstActive y m d minutes then -240 else -300
    zone := "America/New_York" }

/-- The instant on the UTC scale, in minutes; Python compares aware
datetimes by this value. -/
def utcMinutes (t : LocalInstant) : Int :=
  (toordinal t.year t.month t.day : Int) * 1440 + (t.minutes : Int) - t.offsetMinutes

/-- `datetime.strptime(s, "%Y-%m-%d")`: `%Y` is exactly four digits,
`%m`/`%d` one or two (greedy; as with the regex, giving back a digit can
never satisfy the following `'-'` or end, so the greedy take is exact);
the whole string must be consumed and the fields are validated by the
`datetime` constructor.  `none` where Python raises `ValueError`. -/
def takeDigits2 (cs : List Char) : Option (Nat × List Char) :=
  match cs with
  | a :: b :: rest =>
    if isDigitA a then
      if isDigitA b then some (natOfDigits [a, b], rest)
      else some (natOfDigits [a], b :: rest)
    else none
  | [a] => if isDigitA a then some (natOfDigits [a], []) else none
  | [] => none

def parseYmd (cs : List Char) : Option (Nat × Nat × Nat) :=
  match cs with
  | y1 :: y2 :: y3 :: y4 :: '-' :: rest =>
    if isDigitA y1 && isDigitA y2 && isDigitA y3 && isDigitA y4 then
      match takeDigits2 rest with
      | some (m, '-' :: rest2) =>
        (match takeDigits2 rest2 with
         | some (d, []) => mkDate (natOfDigits [y1, y2, y3, y4]) m d
         | _ => none)
      | _ => none
    else none
  | _ => none

/-- The per-club time-of-day chain from the ICS loop:
((start hour, start minute), (end hour, end minute)); the final branch is
the IBMA fallback for any other club. -/
def clubTimes (club : String) : (Nat × Nat) × (Nat × Nat) :=
  if club = "Emerald Guild" then ((17, 0), (20, 0))
  else if club = "NYBMA" then ((19, 30), (21, 30))
  else if club = "Manhattan Resident Managers Club" then ((18, 0), (21, 0))
  else ((18, 0), (21, 0))

/-- One `ics.Event` as the loop populates it. -/
structure IcsEvent where
  name : String
  dtstart : Option LocalInstant
  dtend : Option LocalInstant
  location : Option String
  url : Option String
deriving Repr, DecidableEq

/-- `e.name = f"{row['club']} — {row['title']}"`. -/
def icsName (row : RawRecord) : String := row.club ++ " — " ++ row.title

/-- `if row["location"] != "N/A": e.location = row["location"]` — for the
sentinel the attribute is simply never set. -/
def icsLocation (row : RawRecord) : Option String :=
  if row.location ≠ "N/A" then some row.location else none

/-- `if row["source_url"]: e.url = row["source_url"]` (string truthiness). -/
def icsUrl (row : RawRecord) : Option String :=
  if row.source_url ≠ "" then some row.source_url else none

/-- One iteration of the ICS loop: the `Event` added to the calendar for
`row`, or `none` where the per-row `try/except` catches an exception and
skips the row (inside the `try`, only `strptime` on a present, non-empty
but invalid date string can raise).  A `None` date — or an empty string,
which is falsy in `if row["date"]:` — yields an event with no start/end. -/
def icsEventOfRow (row : RawRecord) : Option IcsEvent :=
  match row.date with
  | none => some ⟨icsName row, none, none, icsLocation row, icsUrl row⟩
  | some ds =>
    if ds = "" then some ⟨icsName row, none, none, icsLocation row, icsUrl row⟩
    else
      match parseYmd ds.data with
      | none => none
      | some (y, m, d) =>
        some ⟨icsName row,
          some (localizeNY y m d ((clubTimes row.club).1.1 * 60 + (clubTimes row.club).1.2)),
          some (localizeNY y m d ((clubTimes row.club).2.1 * 60 + (clubTimes row.club).2.2)),
          icsLocation row, icsUrl row⟩

/-- The events the calendar ends up with, in insertion order
(`cal.events` is a set, but every `ics.Event` carries a fresh uid, so adds
never collide). -/
def icsEvents (rows : List RawRecord) : List IcsEvent :=
  rows.filterMap icsEventOfRow

/-! ## HTML and CSV writers -/

/-- Python f-string interpolation of the date cell: `None` prints as
`"None"`. -/
def htmlDateStr (d : Option String) : String :=
  match d with
  | none => "None"
  | some s => s

/-- The `<li>` block the HTML report writer emits for one row, with every
field interpolated verbatim (no HTML escaping in the source). -/
def htmlRow (r : RawRecord) : String :=
  "<li>\n" ++
  "<b>" ++ r.club ++ "</b> — " ++ htmlDateStr r.date ++ "<br>\n" ++
  "Title: " ++ r.title ++ "<br>\n" ++
  "Location: " ++ r.location ++ "<br>\n" ++
  "Link: <a href=\x27" ++ r.source_url ++ "\x27 target=\x27_blank\x27>" ++
  r.source_url ++ "</a>\n" ++
  "</li><br>\n"

/-- The whole `report.html` body (also copied to `index.html`). -/
def htmlReport (rows : List RawRecord) : String :=
  "<h2>Upcoming NYC Property Manager Meetings</h2>\n<ul>\n" ++
  String.join (rows.map htmlRow) ++ "</ul>\n"

/-- The CSV cell values of one row, in DataFrame column order
(club, title, location, date, source_url); a `None` date becomes an empty
cell. -/
def csvFields (r : RawRecord) : List String :=
  [r.club, r.title, r.location,
   (match r.date with
    | none => ""
    | some s => s), r.source_url]

/-! ## Adapter invocation (`__main__`, collection stage) -/

/-- The collection stage of `__main__`: the four scrapers are called in
sequence with no `try/except`, each result extended onto `all_events`; an
exception from any scraper therefore propagates (modelled as
`Except.error`) and aborts the run before later adapters contribute and
before any output file is written. -/
def collectAdapters : List (Except String (List RawRecord)) → Except String (List RawRecord)
  | [] => Except.ok []
  | r :: rest =>
    match r with
    | Except.error e => Except.error e
    | Except.ok recs =>
      match collectAdapters rest with
      | Except.error e => Except.error e
      | Except.ok more => Except.ok (recs ++ more)

/-! ## Past-event filtering (spec-modelled) -/

/-- Date-only `<=` on (year, month, day) triples. -/
def dateTripleLe (a b : Nat × Nat × Nat) : Bool :=
  decide (a.1 < b.1 ∨ (a.1 = b.1 ∧ (a.2.1 < b.2.1 ∨ (a.2.1 = b.2.1 ∧ a.2.2 ≤ b.2.2))))

/-- Modelled from the spec: the predicate deciding whether an event is
retained when `filter_past` is enabled — its date is present, parses as a
calendar date, and is `>= as_of` (date-only, timezone-naive comparison);
null-dated events are dropped.  The filtering pipeline variant is not part
of the included source (`scraper.py` writes all records unfiltered), so
this stage follows §4.4 of the spec. -/
def keepEvent (as_of : Nat × Nat × Nat) (r : RawRecord) : Bool :=
  match r.date with
  | none => false
  | some ds =>
    match parseYmd ds.data with
    | none => false
    | some t => dateTripleLe as_of t

/-- Modelled from the spec: `run`'s `filter_past` toggle (§4.4): enabled,
keep exactly the events `keepEvent` accepts, in order; disabled, keep
everything including null-dated events. -/
def runFilter (filter_past : Bool) (as_of : Nat × Nat × Nat)
    (evs : List RawRecord) : List RawRecord :=
  if filter_past then evs.filter (keepEvent as_of) else evs

/-- Example records for the spec's filtering scenario. -/
def pastEventExample : RawRecord :=
  { club := "A", title := "T", location := "L", date := some "2025-10-15", source_url := "u" }

def futureEventExample : RawRecord :=
  { club := "B", title := "T", location := "L", date := some "2025-11-06", source_url := "u" }

def datelessEventExample : RawRecord :=
  { club := "C", title := "T", location := "L", date := none, source_url := "u" }

/-! ## C1: DST-correct event building -/

/-- C1: the canonical event built from a raw record dated 2025-11-06 for
club "NYBMA" starts 19:30 and ends 21:30 local in America/New_York with
the standard-time offset UTC-05:00 (2025-11-06 falls after the first
Sunday of November); the same build for "Emerald Guild" on 2025-07-04
starts 17:00 local with the daylight-saving offset UTC-04:00 — a different
offset than the winter date. -/
def nybmaWinterRow : RawRecord :=
  { club := "NYBMA"
    title := "Business Meeting"
    location := connollys
    date := some "2025-11-06"
    source_url := "https://nybma.org/" }

def emeraldSummerRow : RawRecord :=
  { club := "Emerald Guild"
    title := "Event"
    location := "N/A"
    date := some "2025-07-04"
    source_url := "https://emeraldguild.org/events/" }

theorem build_event_dst_offsets :
    (icsEventOfRow nybmaWinterRow =
      some ⟨"NYBMA — Business Meeting",
        some ⟨2025, 11, 6, 19 * 60 + 30, -300, "America/New_York"⟩,
        some ⟨2025, 11, 6, 21 * 60 + 30, -300, "America/New_York"⟩,
        some connollys, some "https://nybma.org/"⟩) ∧
    (icsEventOfRow emeraldSummerRow =
      some ⟨"Emerald Guild — Event",
        some ⟨2025, 7, 4, 17 * 60, -240, "America/New_York"⟩,
        some ⟨2025, 7, 4, 20 * 60, -240, "America/New_York"⟩,
        none, some "https://emeraldguild.org/events/"⟩) ∧
    (-240 : Int) ≠ -300 := by
  refine ⟨by decide, by decide, by decide⟩

/-! ## C8: start < end with one time zone -/

theorem dstActive_time_irrel (y m d a b : Nat) (ha : 180 ≤ a) (hb : 180 ≤ b) :
    dstActive y m d a = dstActive y m d b := by
  unfold dstActive
  split
  · rfl
  · split
    · rw [decide_eq_decide]
      omega
    · split
      · rw [decide_eq_decide]
        omega
      · rfl

theorem clubTimes_bounds (club : String) :
    180 ≤ (clubTimes club).1.1 * 60 + (clubTimes club).1.2 ∧
    180 ≤ (clubTimes club).2.1 * 60 + (clubTimes club).2.2 ∧
    (clubTimes club).1.1 * 60 + (clubTimes club).1.2 <
      (clubTimes club).2.1 * 60 + (clubTimes club).2.2 := by
  unfold clubTimes
  split_ifs <;> decide

/-- C8: whenever the built event carries start and end instants, the start
is strictly earlier than the end (compared as instants, by UTC value) and
both carry the same time zone — indeed the same UTC offset, since every
policy's times of day lie on one side of any 02:00 transition. -/
theorem start_end_invariant (row : RawRecord) (ev : IcsEvent) (s e : LocalInstant)
    (hrow : icsEventOfRow row = some ev)
    (hs : ev.dtstart = some s) (he : ev.dtend = some e) :
    s.zone = e.zone ∧ s.offsetMinutes = e.offsetMinutes ∧ utcMinutes s < utcMinutes e := by
  unfold icsEventOfRow at hrow
  split at hrow
  · rw [Option.some.injEq] at hrow
    subst hrow
    exact absurd hs (by simp)
  · split at hrow
    · rw [Option.some.injEq] at hrow
      subst hrow
      exact absurd hs (by simp)
    · split at hrow
      · exact absurd hrow (by simp)
      · rename_i y m d heq
        rw [Option.some.injEq] at hrow
        subst hrow
        dsimp only at hs he
        rw [Option.some.injEq] at hs he
        subst hs
        subst he
        have hb := clubTimes_bounds row.club
        have hdst := dstActive_time_irrel y m d
          ((clubTimes row.club).1.1 * 60 + (clubTimes row.club).1.2)
          ((clubTimes row.club).2.1 * 60 + (clubTimes row.club).2.2) hb.1 hb.2.1
        refine ⟨rfl, ?_, ?_⟩
        · simp only [localizeNY, hdst]
        · unfold utcMinutes localizeNY
          dsimp only
          rw [hdst]
          have hlt := hb.2.2
          omega

/-- Witness for `start_end_invariant` at the concrete NYBMA winter event. -/
theorem start_end_invariant_witness :
    (⟨2025, 11, 6, 1170, -300, "America/New_York"⟩ : LocalInstant).zone =
      (⟨2025, 11, 6, 1290, -300, "America/New_York"⟩ : LocalInstant).zone ∧
    utcMinutes ⟨2025, 11, 6, 1170, -300, "America/New_York"⟩ <
      utcMinutes ⟨2025, 11, 6, 1290, -300, "America/New_York"⟩ := by
  have h := start_end_invariant nybmaWinterRow
    ⟨"NYBMA — Business Meeting",
      some ⟨2025, 11, 6, 1170, -300, "America/New_York"⟩,
      some ⟨2025, 11, 6, 1290, -300, "America/New_York"⟩,
      some connollys, some "https://nybma.org/"⟩
    ⟨2025, 11, 6, 1170, -300, "America/New_York"⟩
    ⟨2025, 11, 6, 1290, -300, "America/New_York"⟩
    (by decide) rfl rfl
  exact ⟨h.1, h.2.2⟩

/-! ## C9: sentinel locations -/

def naLocationRow : RawRecord :=
  { club := "Emerald Guild"
    title := "Event"
    location := "N/A"
    date := none
    source_url := "u" }

def unknownLocationRow : RawRecord :=
  { club := "X"
    title := "T"
    location := "unknown"
    date := none
    source_url := "u" }

/-- C9 counterexample: the ICS writer does not render a placeholder for
sentinel locations — for `"N/A"` it omits the location field altogether
(so not every writer renders a fixed placeholder, and in the calendar
output the field IS omitted), while `"unknown"` is not treated as a
sentinel at all and is emitted as a real location. -/
theorem ics_location_omitted_counterexample :
    ((icsEventOfRow naLocationRow).map (fun ev => ev.location) = some none) ∧
    ((icsEventOfRow unknownLocationRow).map (fun ev => ev.location) = some (some "unknown")) := by
  refine ⟨by decide, by decide⟩

theorem icsEventOfRow_location (r : RawRecord) (ev : IcsEvent)
    (h : icsEventOfRow r = some ev) : ev.location = icsLocation r := by
  unfold icsEventOfRow at h
  split at h
  · rw [Option.some.injEq] at h
    subst h
    rfl
  · split at h
    · rw [Option.some.injEq] at h
      subst h
      rfl
    · split at h
      · exact absurd h (by simp)
      · rw [Option.some.injEq] at h
        subst h
        rfl

/-- C9 amended: a sentinel location (`"N/A"` or `"unknown"`) is preserved
verbatim in the collected record — never mapped to the empty string — and
rendered literally by the CSV and HTML writers; the ICS writer, however,
omits the location field for `"N/A"` and emits `"unknown"` unchanged as a
location. -/
theorem location_sentinel_passthrough (r : RawRecord)
    (h : r.location = "N/A" ∨ r.location = "unknown") :
    r.location ≠ "" ∧
    (csvFields r)[2]? = some r.location ∧
    ("Location: " ++ r.location ++ "<br>\n").data <:+: (htmlRow r).data ∧
    (∀ ev, icsEventOfRow r = some ev →
      ev.location = if r.location = "N/A" then none else some r.location) := by
  refine ⟨?_, rfl, ?_, ?_⟩
  · rcases h with h | h <;> rw [h] <;> decide
  · refine ⟨("<li>\n<b>" ++ r.club ++ "</b> — " ++ htmlDateStr r.date ++ "<br>\n" ++
      "Title: " ++ r.title ++ "<br>\n").data,
      ("Link: <a href=\x27" ++ r.source_url ++ "\x27 target=\x27_blank\x27>" ++
        r.source_url ++ "</a>\n" ++ "</li><br>\n").data, ?_⟩
    simp only [htmlRow, String.data_append, List.append_assoc, List.cons_append,
      List.nil_append]
  · intro ev hev
    rw [icsEventOfRow_location r ev hev]
    unfold icsLocation
    by_cases hc : r.location = "N/A" <;> simp [hc]

/-- Witness for `location_sentinel_passthrough` at the `"N/A"` record. -/
theorem location_sentinel_passthrough_witness :
    naLocationRow.location ≠ "" ∧
    (csvFields naLocationRow)[2]? = some naLocationRow.location ∧
    ("Location: " ++ naLocationRow.location ++ "<br>\n").data <:+: (htmlRow naLocationRow).data ∧
    (∀ ev, icsEventOfRow naLocationRow = some ev →
      ev.location = if naLocationRow.location = "N/A" then none
        else some naLocationRow.location) :=
  location_sentinel_passthrough naLocationRow (Or.inl rfl)

/-! ## C10: dateless records still become calendar events -/

/-- C10: a record with a null date still contributes an event component to
the calendar — carrying the "club — title" summary and the optional
location and URL, with no start or end instant — rather than being
skipped. -/
theorem dateless_rows_still_added (rows : List RawRecord) (r : RawRecord)
    (hmem : r ∈ rows) (hdate : r.date = none) :
    icsEventOfRow r = some ⟨icsName r, none, none, icsLocation r, icsUrl r⟩ ∧
    (⟨icsName r, none, none, icsLocation r, icsUrl r⟩ : IcsEvent) ∈ icsEvents rows := by
  have h1 : icsEventOfRow r = some ⟨icsName r, none, none, icsLocation r, icsUrl r⟩ := by
    unfold icsEventOfRow
    rw [hdate]
  refine ⟨h1, ?_⟩
  unfold icsEvents
  exact List.mem_filterMap.mpr ⟨r, hmem, h1⟩

/-- Witness for `dateless_rows_still_added` at a concrete dateless record. -/
theorem dateless_rows_still_added_witness :
    icsEventOfRow datelessEventExample =
      some ⟨icsName datelessEventExample, none, none,
        icsLocation datelessEventExample, icsUrl datelessEventExample⟩ ∧
    (⟨icsName datelessEventExample, none, none,
      icsLocation datelessEventExample, icsUrl datelessEventExample⟩ : IcsEvent) ∈
      icsEvents [datelessEventExample] :=
  dateless_rows_still_added [datelessEventExample] datelessEventExample
    (List.mem_singleton.mpr rfl) rfl

/-! ## C6: the HTML writer does not escape -/

def scriptTitleRow : RawRecord :=
  { club := "Club"
    title := "<script>alert(1)</script>"
    location := "N/A"
    date := none
    source_url := "u" }

/-- Substring test on character lists (used to state what the produced
markup contains). -/
def containsSub (pat : List Char) : List Char → Bool
  | [] => pat.isEmpty
  | c :: rest => pat.isPrefixOf (c :: rest) || containsSub pat rest

/-- C6: the HTML report writer interpolates every field verbatim — a title
containing `<script>` reaches the produced markup as active markup, and no
`&lt;` escape appears anywhere in the row.  This contradicts the claimed
escaping; the fields are not HTML-escaped in the source. -/
theorem html_title_not_escaped :
    containsSub "<script>".data (htmlRow scriptTitleRow).data = true ∧
    containsSub "&lt;".data (htmlRow scriptTitleRow).data = false := by
  refine ⟨by decide, by decide⟩

/-! ## C7: an adapter exception aborts the whole run -/

/-- C7: the collection stage has no exception handling: when the first
adapter fails, the whole run fails with that error and the later adapters'
records (which the second conjunct shows would otherwise all be collected)
never reach the outputs. -/
theorem adapter_exception_aborts_run :
    collectAdapters [Except.error "ConnectionError", Except.ok [futureEventExample],
      Except.ok [pastEventExample]] = Except.error "ConnectionError" ∧
    collectAdapters [Except.ok [futureEventExample], Except.ok [pastEventExample]] =
      Except.ok [futureEventExample, pastEventExample] := by
  refine ⟨rfl, rfl⟩

/-! ## C5: past-event filtering (spec-modelled) -/

/-- C5 (modelled from the spec, §4.4): with `filter_past` disabled every
event is retained unchanged; with it enabled, exactly the events whose
date is present, parses, and is `>= as_of` are retained (null-dated events
drop); on the spec's example — events dated 2025-10-15, 2025-11-06 and one
null-dated, with `as_of` 2025-11-01 — filtering keeps only the 2025-11-06
event and disabling the filter keeps all three. -/
theorem run_filter_spec :
    (∀ (as_of : Nat × Nat × Nat) (evs : List RawRecord), runFilter false as_of evs = evs) ∧
    (∀ (as_of : Nat × Nat × Nat) (evs : List RawRecord) (r : RawRecord),
      r ∈ runFilter true as_of evs ↔
        r ∈ evs ∧ ∃ ds t, r.date = some ds ∧ parseYmd ds.data = some t ∧
          dateTripleLe as_of t = true) ∧
    runFilter true (2025, 11, 1) [pastEventExample, futureEventExample, datelessEventExample] =
      [futureEventExample] ∧
    runFilter false (2025, 11, 1) [pastEventExample, futureEventExample, datelessEventExample] =
      [pastEventExample, futureEventExample, datelessEventExample] := by
  refine ⟨fun as_of evs => rfl, ?_, by decide, rfl⟩
  intro as_of evs r
  rw [show runFilter true as_of evs = evs.filter (keepEvent as_of) from rfl]
  rw [List.mem_filter]
  constructor
  · rintro ⟨hmem, hk⟩
    refine ⟨hmem, ?_⟩
    unfold keepEvent at hk
    split at hk
    · exact absurd hk (by simp)
    · rename_i ds hds
      split at hk
      · exact absurd hk (by simp)
      · rename_i t ht
        exact ⟨ds, t, hds, ht, hk⟩
  · rintro ⟨hmem, ds, t, hds, ht, hle⟩
    refine ⟨hmem, ?_⟩
    simp only [keepEvent, hds, ht]
    exact hle
